import Mathlib

/-!
Shallow embedding of the Coralogix tail worker (src/index.js): the
event-to-canonical-record pipeline.  JavaScript values that matter to the
claims are modelled explicitly: absent object properties become `Option`,
JS truthiness is modelled per type, and the platform primitives used by the
code (`parseFloat`, `parseInt`, `Number.prototype.toString`, the WHATWG
`URL` parser restricted to hierarchical absolute URLs, `JSON.stringify`)
are given executable Lean models.
-/

set_option autoImplicit false

/-- Model of a JavaScript primitive value, used for the field resolver
`getValueOrLog`, which the source applies to arbitrary values. -/
inductive JSValue where
  | undefined
  | null
  | str (s : String)
  | num (n : Int)
  | bool (b : Bool)
deriving Repr, DecidableEq

/-- JS truthiness for `JSValue`. -/
def jsTruthy : JSValue → Bool
  | .undefined => false
  | .null => false
  | .str s => s != ""
  | .num n => n != 0
  | .bool b => b

/-- Source `getValueOrLog(value, fieldName, context)` (src/index.js 172-183):
returns the value unchanged when it is neither `undefined`, `null` nor the
empty string, otherwise returns `null`.  The sampled `console.warn`
diagnostic is a side effect with no influence on the returned value and is
not modelled. -/
def getValueOrLog (value : JSValue) : JSValue :=
  if value ≠ .undefined ∧ value ≠ .null ∧ value ≠ .str "" then value
  else .null

/-- Embed an optional string property as a `JSValue` (missing property
reads as `undefined` in JS). -/
def jsOfStrOpt : Option String → JSValue
  | some s => .str s
  | none => .undefined

/-- Partial projection back to a string. -/
def JSValue.toStrOpt : JSValue → Option String
  | .str s => some s
  | _ => none

/-- JS `a || b` on string-valued expressions: `a` wins unless it is absent
or the empty string (the only falsy strings). -/
def jsOrS (a b : Option String) : Option String :=
  match a with
  | some s => if s = "" then b else some s
  | none => b

/-- JS `a || b` where `a` is an optional number and `b` a number
(used for `logData.timestamp || Date.now()`): `0` is falsy. -/
def jsOrNat (a : Option Nat) (b : Nat) : Nat :=
  match a with
  | some n => if n = 0 then b else n
  | none => b

/-- JS object property read on a string-valued object: first binding wins
(the objects built by the source never carry duplicate keys). -/
def jsGet (o : List (String × String)) (k : String) : Option String :=
  (o.find? (fun p => p.1 == k)).map (fun p => p.2)

/-- JS object property write `o[k] = v`: updates the value in place if the
key exists (keeping its position), otherwise appends the binding. -/
def objSet : List (String × String) → String → String → List (String × String)
  | [], k, v => [(k, v)]
  | p :: o, k, v => if p.1 == k then (k, v) :: o else p :: objSet o k v

/-- Header-key folding from the source reducers (src/index.js 58-61, 66-69):
`key.toLowerCase()` followed by replacing every hyphen with an underscore. -/
def foldKey (k : String) : String :=
  String.mk ((k.data.map Char.toLower).map (fun c => if c = '-' then '_' else c))

/-- The header-folding reducer from `tailEvent2fastly`
(src/index.js 58-61 and 66-69):
`Object.entries(headers).reduce((acc,[k,v]) => (acc[fold k]=v, acc), {})`. -/
def foldHeaders (hs : List (String × String)) : List (String × String) :=
  hs.foldl (fun acc p => objSet acc (foldKey p.1) p.2) []

/-- Last-write-wins specification of folded-header lookup, straight from
the spec wording: the value of the last source entry whose folded key
matches. -/
def lastFoldVal (hs : List (String × String)) (k : String) : Option String :=
  hs.foldl (fun acc q => if foldKey q.1 == k then some q.2 else acc) none

/-- Numeric value of a list of decimal digit characters. -/
def digitsVal (ds : List Char) : Nat :=
  ds.foldl (fun n c => 10 * n + (c.toNat - 48)) 0

/-- Split the longest prefix of decimal digits off a character list. -/
def takeDigits : List Char → List Char × List Char
  | [] => ([], [])
  | c :: t =>
    if c.isDigit then
      let (d, r) := takeDigits t
      (c :: d, r)
    else ([], c :: t)

/-- JS whitespace relevant to numeric parsing. -/
def isJsWS (c : Char) : Bool :=
  c = ' ' ∨ c = '\t' ∨ c = '\n' ∨ c = '\r'

/-- Optional leading sign of a JS numeric literal: the sign flag and the
remaining characters. -/
def splitSign (cs : List Char) : Bool × List Char :=
  match cs with
  | '-' :: t => (true, t)
  | '+' :: t => (false, t)
  | _ => (false, cs)

/-- Model of JS `parseFloat` on the inputs the worker meets (optional sign,
decimal digits, optional fraction; exponent notation and `Infinity` are not
modelled).  `none` is JavaScript's `NaN` result. -/
def parseFloatQ (s : String) : Option Rat :=
  let cs := s.data.dropWhile isJsWS
  let signed := splitSign cs
  let (ip, rest) := takeDigits signed.2
  let fp : List Char :=
    match rest with
    | '.' :: t => (takeDigits t).1
    | _ => []
  if ip = [] ∧ fp = [] then none
  else
    let mag : Rat := mkRat ((digitsVal ip * 10 ^ fp.length + digitsVal fp : Nat) : Int) (10 ^ fp.length)
    some (if signed.1 then -mag else mag)

/-- `parseFloat` applied to a possibly-absent property: `parseFloat(undefined)`
stringifies to `"undefined"` and yields `NaN`. -/
def parseFloatJS : Option String → Option Rat
  | some s => parseFloatQ s
  | none => none

/-- JS `x || undefined` on the result of `parseFloat`: both `NaN` and `0`
are falsy, so they become `undefined` (src/index.js 88-89). -/
def jsNumOrUndefined : Option Rat → Option Rat
  | some q => if q = 0 then none else some q
  | none => none

/-- Model of JS `parseInt` in base 10 on the inputs the worker meets
(optional sign and leading decimal digits; the hex autodetection of
`parseInt` is not modelled).  `none` is `NaN`. -/
def parseIntJS (s : String) : Option Int :=
  let cs := s.data.dropWhile isJsWS
  let signed := splitSign cs
  let (ip, _) := takeDigits signed.2
  if ip = [] then none
  else some (if signed.1 then -(digitsVal ip : Int) else (digitsVal ip : Int))

/-- JS `x >= b` where `x` may be `NaN` (comparison with `NaN` is false). -/
def jsGE (x : Option Int) (b : Int) : Bool :=
  match x with
  | some v => b ≤ v
  | none => false

/-- Decimal digit character. -/
def digitChar (n : Nat) : Char := Char.ofNat (48 + n)

/-- Decimal digits of a natural number, most significant first
(fuel-driven; `fuel` bounds the number of divisions by ten). -/
def natDigits : Nat → Nat → List Char
  | 0, _ => []
  | fuel + 1, n =>
    if n < 10 then [digitChar n]
    else natDigits fuel (n / 10) ++ [digitChar (n % 10)]

/-- Model of JS `Number.prototype.toString` for nonnegative integers,
as used for `response.status.toString()` and `cf.asn.toString()`. -/
def jsNatToString (n : Nat) : String := String.mk (natDigits (n + 1) n)

/-- Result of the platform URL parse that the worker relies on: the
components `tailEvent2fastly` reads (`hostname`, `pathname`, `search`),
plus scheme and port for completeness.  `port` is the digit string,
empty when no port is given; `search` is either empty or starts with the
question-mark character. -/
structure URLRec where
  scheme : String
  hostname : String
  port : String
  pathname : String
  search : String
deriving Repr, DecidableEq

/-- Split a character list at the first scheme separator (colon followed
by two slashes), returning the characters before and after it. -/
def splitSchemeSep : List Char → Option (List Char × List Char)
  | [] => none
  | ':' :: '/' :: '/' :: rest => some ([], rest)
  | c :: rest =>
    match splitSchemeSep rest with
    | some (a, b) => some (c :: a, b)
    | none => none

/-- Split off the authority: everything up to the first slash,
question mark or hash. -/
def splitAuthority : List Char → List Char × List Char
  | [] => ([], [])
  | c :: t =>
    if c = '/' ∨ c = '?' ∨ c = '#' then ([], c :: t)
    else
      let (a, r) := splitAuthority t
      (c :: a, r)

/-- Split host from port at the first colon. -/
def splitHostPort : List Char → List Char × Option (List Char)
  | [] => ([], none)
  | ':' :: t => ([], some t)
  | c :: t =>
    let (h, p) := splitHostPort t
    (c :: h, p)

/-- Everything before the fragment marker. -/
def takeUntilHash : List Char → List Char
  | [] => []
  | '#' :: _ => []
  | c :: t => c :: takeUntilHash t

/-- Split the post-authority part into path and query (fragment dropped). -/
def splitPathQuery : List Char → List Char × List Char
  | [] => ([], [])
  | '?' :: t => ([], takeUntilHash t)
  | '#' :: _ => ([], [])
  | c :: t =>
    let (p, q) := splitPathQuery t
    (c :: p, q)

/-- Modelled from the platform: the WHATWG `URL` constructor used at
src/index.js 43, restricted to hierarchical absolute URLs
(`scheme://host[:port][/path][?query][#fragment]`).  Parsing fails (the
constructor throws) when the scheme separator is missing, the scheme or
host is empty, or the port contains a non-digit.  The host is lower-cased;
an empty path reads back as a single slash; an empty query reads back as
an empty `search`, exactly as the platform parser behaves. -/
def parseURL (s : String) : Option URLRec :=
  match splitSchemeSep s.data with
  | none => none
  | some (sch, rest) =>
    if sch = [] then none
    else
      let (auth, after) := splitAuthority rest
      let (host, port?) := splitHostPort auth
      if host = [] then none
      else
        let portOk : Bool := match port? with | some p => p.all Char.isDigit | none => true
        if portOk then
          let (path, query) := splitPathQuery after
          some
            { scheme := String.mk sch
              hostname := String.mk (host.map Char.toLower)
              port := match port? with | some p => String.mk p | none => ""
              pathname := if path = [] then "/" else String.mk path
              search := if query = [] then "" else String.mk ('?' :: query) }
        else none

/-- Source `parsedUrl.search.replace('?', '')` (src/index.js 53): removes
the first question mark of the string. -/
def removeFirstQ : List Char → List Char
  | [] => []
  | '?' :: t => t
  | c :: t => c :: removeFirstQ t

/-- String version of `removeFirstQ`. -/
def stripFirstQ (s : String) : String := String.mk (removeFirstQ s.data)

/-- JSON value, the model of what `JSON.stringify` consumes.  Absent
(`undefined`) object members are dropped before this stage, as the
serializer does. -/
inductive Json where
  | null
  | bool (b : Bool)
  | num (q : Rat)
  | str (s : String)
  | arr (xs : List Json)
  | obj (fs : List (String × Json))
deriving Repr

/-- Escape a character for a JSON string literal. -/
def escChar (c : Char) : String :=
  if c = '"' then String.mk ['\\', '"']
  else if c = '\\' then String.mk ['\\', '\\']
  else if c = '\n' then String.mk ['\\', 'n']
  else if c = '\r' then String.mk ['\\', 'r']
  else if c = '\t' then String.mk ['\\', 't']
  else String.singleton c

/-- Escape a string for a JSON string literal. -/
def escString (s : String) : String := String.join (s.data.map escChar)

/-- Fractional decimal digits of `num/den` (with `num < den`),
fuel-bounded; exact for the decimal fractions `parseFloat` produces. -/
def ratFracDigits : Nat → Nat → Nat → List Char
  | 0, _, _ => []
  | fuel + 1, num, den =>
    if num = 0 then []
    else digitChar (num * 10 / den) :: ratFracDigits fuel (num * 10 % den) den

/-- Decimal rendering of a rational, as `JSON.stringify` renders the
numbers this worker produces. -/
def ratRender (q : Rat) : String :=
  let a : Rat := if q < 0 then -q else q
  let ip : Nat := a.num.toNat / a.den
  let fracNum : Nat := a.num.toNat % a.den
  let digitsPart : String :=
    if fracNum = 0 then jsNatToString ip
    else jsNatToString ip ++ String.mk ('.' :: ratFracDigits 30 fracNum a.den)
  if q < 0 then String.mk ['-'] ++ digitsPart else digitsPart

mutual

/-- Model of `JSON.stringify` (compact form, no spacing). -/
def Json.render : Json → String
  | .null => "null"
  | .bool b => cond b "true" "false"
  | .num q => ratRender q
  | .str s => "\"" ++ escString s ++ "\""
  | .arr xs => "[" ++ String.intercalate "," (Json.renderList xs) ++ "]"
  | .obj fs => "\x7b" ++ String.intercalate "," (Json.renderObj fs) ++ "\x7d"

/-- Render the elements of a JSON array. -/
def Json.renderList : List Json → List String
  | [] => []
  | x :: xs => Json.render x :: Json.renderList xs

/-- Render the members of a JSON object. -/
def Json.renderObj : List (String × Json) → List String
  | [] => []
  | (k, v) :: fs => ("\"" ++ escString k ++ "\":" ++ Json.render v) :: Json.renderObj fs

end

mutual

/-- Model of the JS `String(x)` coercion on the values console items
carry. -/
def jsToString : Json → String
  | .null => "null"
  | .bool b => cond b "true" "false"
  | .num q => ratRender q
  | .str s => s
  | .arr xs => String.intercalate "," (jsToStringArr xs)
  | .obj _ => "[object Object]"

/-- Array elements under `String(...)`: `null` elements print empty. -/
def jsToStringArr : List Json → List String
  | [] => []
  | x :: xs =>
    (match x with
     | .null => ""
     | y => jsToString y) :: jsToStringArr xs

end

/-- Source `formatConsoleMessage(message)` (src/index.js 301-312): a
non-array is coerced with `String(...)`; an array maps objects (including
arrays and `null`, for which `typeof` is `object`) through
`JSON.stringify` and scalars through `String(...)`, joined by single
spaces. -/
def formatConsoleMessage : Json → String
  | .arr xs =>
    String.intercalate " "
      (xs.map (fun item =>
        match item with
        | .obj fs => Json.render (.obj fs)
        | .arr ys => Json.render (.arr ys)
        | .null => Json.render .null
        | y => jsToString y))
  | m => jsToString m

/-- Build a JSON object from optional members, dropping the absent ones
exactly as `JSON.stringify` drops `undefined`-valued properties. -/
def objFields (fs : List (String × Option Json)) : List (String × Json) :=
  fs.filterMap (fun p => p.2.map (fun v => (p.1, v)))

/-- The `cf` geo/metadata object on a tail request
(spec section 3; read at src/index.js 54, 77-108). -/
structure CFInfo where
  httpProtocol : Option String := none
  asOrganization : Option String := none
  asn : Option Nat := none
  city : Option String := none
  country : Option String := none
  continent : Option String := none
  postalCode : Option String := none
  latitude : Option String := none
  longitude : Option String := none
  colo : Option String := none
  regionCode : Option String := none
  ip : Option String := none
  ray : Option String := none
deriving Repr, DecidableEq

/-- Raw fetch request carried by a tail event. -/
structure RawRequest where
  method : Option String := none
  url : Option String := none
  headers : Option (List (String × String)) := none
  cf : Option CFInfo := none
deriving Repr, DecidableEq

/-- Raw fetch response carried by a tail event. -/
structure RawResponse where
  status : Option Nat := none
  headers : Option (List (String × String)) := none
deriving Repr, DecidableEq

/-- The nested fetch sub-event (`event.event`). -/
structure RawFetchSubEvent where
  request : Option RawRequest := none
  response : Option RawResponse := none
deriving Repr, DecidableEq

/-- One console-log item of a tail event.  A console item always carries
its level and message per the tail data model; the timestamp is read with
a fallback and so stays optional. -/
structure ConsoleItem where
  level : String
  message : Json := .arr []
  timestamp : Option Nat := none
deriving Repr

/-- One exception item of a tail event. -/
structure ExceptionItem where
  name : Option String := none
  message : Option String := none
  timestamp : Option Nat := none
deriving Repr, DecidableEq

/-- One owning tail event (`RawOwningEvent` of the spec).  `wallTime`
lives on the owning event, where src/index.js 104 reads it. -/
structure RawOwningEvent where
  scriptName : Option String := none
  logs : Option (List ConsoleItem) := none
  exceptions : Option (List ExceptionItem) := none
  event : Option RawFetchSubEvent := none
  rayId : Option String := none
  wallTime : Option Nat := none
deriving Repr

/-- The environment/configuration values the normalizer reads. -/
structure WorkerEnv where
  APPLICATION_NAME : Option String := none
  SUBSYSTEM_NAME : Option String := none
deriving Repr, DecidableEq

/-- The `request` section of the Fastly-style CDN record. -/
structure FastlyRequest where
  method : Option String
  host : String
  url : String
  qs : String
  protocol : Option String
  backend : String
  restarts : Nat
  body_size : Nat
  headers : List (String × String)
deriving Repr, DecidableEq

/-- The `response` section of the CDN record. -/
structure FastlyResponse where
  status : Option String
  body_size : Nat
  headers : List (String × String)
deriving Repr, DecidableEq

/-- The static `helix` section of the CDN record. -/
structure HelixInfo where
  request_type : String
  backend_type : String
  contentbus_prefix : String
deriving Repr, DecidableEq

/-- The `client` section of the CDN record. -/
structure FastlyClient where
  name : Option String
  number : Option Nat
  city_name : Option String
  country_name : Option String
  ip : Option String
deriving Repr, DecidableEq

/-- Latitude/longitude pair of the geo section. -/
structure GeoPoint where
  lat : Option Rat
  lon : Option Rat
deriving Repr, DecidableEq

/-- AS number/organization of the geo section. -/
structure AsnInfo where
  number : Option String
  organization : Option String
deriving Repr, DecidableEq

/-- The `cdn.originating_ip_geoip` section. -/
structure GeoIP where
  ip : Option String
  ip_ipaddr : Option String
  location_geopoint : GeoPoint
  continent_name : Option String
  country_name : Option String
  city_name : Option String
  postal_code : Option String
  is_local : Bool
  asn : AsnInfo
deriving Repr, DecidableEq

/-- The `cdn` section of the CDN record. -/
structure CdnInfo where
  originating_ip_geoip : GeoIP
  version : String
  url : Option String
  originating_ip : Option String
  time_elapsed_msec : Option Nat
  is_edge : Bool
  datacenter : Option String
  region_code : Option String
  cache_status : Option String
  cache_ttl : Nat
deriving Repr, DecidableEq

/-- The Fastly-style CDN record (`CanonicalCdnRecord` of the spec). -/
structure FastlyLog where
  request : FastlyRequest
  response : FastlyResponse
  helix : HelixInfo
  client : FastlyClient
  cdn : CdnInfo
deriving Repr, DecidableEq

/-- The object literal returned by `tailEvent2fastly`
(src/index.js 48-111), given the request and the parsed URL. -/
def buildFastly (tailEvent : RawOwningEvent) (request : RawRequest)
    (parsedUrl : URLRec) : FastlyLog :=
  let response? := tailEvent.event.bind (fun s => s.response)
  let cf := request.cf
  let headers := request.headers.getD []
  let responseHeaders := (response?.bind (fun r => r.headers)).getD []
  { request :=
      { method := request.method
        host :=
          match jsGet headers "host" with
          | some h => if h = "" then parsedUrl.hostname else h
          | none => parsedUrl.hostname
        url := parsedUrl.pathname
        qs := stripFirstQ parsedUrl.search
        protocol := cf.bind (fun c => c.httpProtocol)
        backend := "cloudflare_worker"
        restarts := 0
        body_size := 0
        headers := foldHeaders headers }
    response :=
      { status := (response?.bind (fun r => r.status)).map jsNatToString
        body_size := 0
        headers := foldHeaders responseHeaders }
    helix :=
      { request_type := "dynamic"
        backend_type := "cloudflare"
        contentbus_prefix := "live" }
    client :=
      { name := cf.bind (fun c => c.asOrganization)
        number := cf.bind (fun c => c.asn)
        city_name := cf.bind (fun c => c.city)
        country_name := cf.bind (fun c => c.country)
        ip := jsOrS (cf.bind (fun c => c.ip)) (jsGet headers "cf-connecting-ip") }
    cdn :=
      { originating_ip_geoip :=
          { ip := jsOrS (cf.bind (fun c => c.ip)) (jsGet headers "cf-connecting-ip")
            ip_ipaddr := jsOrS (cf.bind (fun c => c.ip)) (jsGet headers "cf-connecting-ip")
            location_geopoint :=
              { lat := jsNumOrUndefined (parseFloatJS (cf.bind (fun c => c.latitude)))
                lon := jsNumOrUndefined (parseFloatJS (cf.bind (fun c => c.longitude))) }
            continent_name := cf.bind (fun c => c.continent)
            country_name := cf.bind (fun c => c.country)
            city_name := cf.bind (fun c => c.city)
            postal_code := cf.bind (fun c => c.postalCode)
            is_local := false
            asn :=
              { number := (cf.bind (fun c => c.asn)).map jsNatToString
                organization := cf.bind (fun c => c.asOrganization) } }
        version := "1"
        url := request.url
        originating_ip := jsOrS (cf.bind (fun c => c.ip)) (jsGet headers "cf-connecting-ip")
        time_elapsed_msec := tailEvent.wallTime
        is_edge := true
        datacenter := cf.bind (fun c => c.colo)
        region_code := cf.bind (fun c => c.regionCode)
        cache_status := jsGet responseHeaders "cf-cache-status"
        cache_ttl := 0 }
  }

/-- Source `tailEvent2fastly(tailEvent)` (src/index.js 29-112): returns
`null` when there is no request object or the request URL does not parse,
otherwise the CDN record literal. -/
def tailEvent2fastly (tailEvent : RawOwningEvent) : Option FastlyLog :=
  match tailEvent.event.bind (fun s => s.request) with
  | none => none
  | some request =>
    match request.url.bind parseURL with
    | none => none
    | some parsedUrl => some (buildFastly tailEvent request parsedUrl)

/-- The `logData` argument of `createCoralogixLog` together with the
`type` string the dispatcher passes alongside it: a console item with
type `console`, an exception item with type `exception`, or the fetch
sub-event with type `fetch` (src/index.js 138, 145, 151). -/
inductive LogData where
  | console (c : ConsoleItem)
  | exception (x : ExceptionItem)
  | fetch (f : RawFetchSubEvent)

/-- `logData.timestamp`: fetch sub-events carry no `timestamp` property. -/
def LogData.timestampOf : LogData → Option Nat
  | .console c => c.timestamp
  | .exception x => x.timestamp
  | .fetch _ => none

/-- `logData.request`, read by `extractRayId` (src/index.js 188): only
the fetch sub-event carries a `request` property. -/
def LogData.requestOf : LogData → Option RawRequest
  | .fetch f => f.request
  | _ => none

/-- The `type` string the dispatcher passes for this item. -/
def LogData.category : LogData → String
  | .console _ => "console"
  | .exception _ => "exception"
  | .fetch _ => "fetch"

/-- The `SEVERITY_MAP` object literal (src/index.js 9-15), read as a
finite map. -/
def SEVERITY_MAP : String → Option Nat
  | "debug" => some 1
  | "info" => some 3
  | "log" => some 3
  | "warn" => some 4
  | "error" => some 5
  | _ => none

/-- Source `extractRayId(event, logData)` (src/index.js 186-220): uses
the request from the fetch sub-event or from `logData`; returns
`undefined` immediately when there is no request object or no headers
object on it; otherwise tries the `cf-ray` header, then `cf.ray`, then
`event.rayId`, each through `getValueOrLog` followed by a truthiness
test. -/
def extractRayId (event : RawOwningEvent) (logData : LogData) : Option String :=
  match (event.event.bind (fun s => s.request)).orElse (fun _ => logData.requestOf) with
  | none => none
  | some request =>
    match request.headers with
    | none => none
    | some requestHeaders =>
      let cfRayHeader := getValueOrLog (jsOfStrOpt (jsGet requestHeaders "cf-ray"))
      if jsTruthy cfRayHeader then cfRayHeader.toStrOpt
      else
        let cfRayObject := getValueOrLog (jsOfStrOpt (request.cf.bind (fun c => c.ray)))
        if jsTruthy cfRayObject then cfRayObject.toStrOpt
        else
          let eventRayId := getValueOrLog (jsOfStrOpt event.rayId)
          if jsTruthy eventRayId then eventRayId.toStrOpt
          else none

/-- The canonical log record sent to Coralogix (`CanonicalLogRecord`). -/
structure CoralogixLog where
  timestamp : Nat
  applicationName : String
  subsystemName : Option String
  computerName : Option String
  severity : Nat
  text : String
  category : String
  className : Option String
  methodName : Option String
  threadId : Option String
deriving Repr, DecidableEq

/-- Encode an optional string member. -/
def encStr (s : Option String) : Option Json := s.map Json.str

/-- Encode an optional natural-number member. -/
def encNat (n : Option Nat) : Option Json := n.map (fun k => Json.num (k : Rat))

/-- Encode a (folded) header object. -/
def encHeaders (hs : List (String × String)) : Json :=
  .obj (hs.map (fun p => (p.1, Json.str p.2)))

/-- JSON encoding of the `request` section. -/
def encodeFastlyRequest (r : FastlyRequest) : Json :=
  .obj (objFields
    [("method", encStr r.method),
     ("host", some (.str r.host)),
     ("url", some (.str r.url)),
     ("qs", some (.str r.qs)),
     ("protocol", encStr r.protocol),
     ("backend", some (.str r.backend)),
     ("restarts", some (.num (r.restarts : Rat))),
     ("body_size", some (.num (r.body_size : Rat))),
     ("headers", some (encHeaders r.headers))])

/-- JSON encoding of the `response` section. -/
def encodeFastlyResponse (r : FastlyResponse) : Json :=
  .obj (objFields
    [("status", encStr r.status),
     ("body_size", some (.num (r.body_size : Rat))),
     ("headers", some (encHeaders r.headers))])

/-- JSON encoding of the static `helix` section. -/
def encodeHelix : HelixInfo → Json
  | ⟨rt, bt, cp⟩ =>
    .obj [("request_type", .str rt), ("backend_type", .str bt),
          ("contentbus_prefix", .str cp)]

/-- JSON encoding of the `client` section. -/
def encodeClient (c : FastlyClient) : Json :=
  .obj (objFields
    [("name", encStr c.name),
     ("number", encNat c.number),
     ("city_name", encStr c.city_name),
     ("country_name", encStr c.country_name),
     ("ip", encStr c.ip)])

/-- JSON encoding of the `cdn.originating_ip_geoip` section. -/
def encodeGeoIP (g : GeoIP) : Json :=
  .obj (objFields
    [("ip", encStr g.ip),
     ("ip_ipaddr", encStr g.ip_ipaddr),
     ("location_geopoint", some (.obj (objFields
        [("lat", g.location_geopoint.lat.map Json.num),
         ("lon", g.location_geopoint.lon.map Json.num)]))),
     ("continent_name", encStr g.continent_name),
     ("country_name", encStr g.country_name),
     ("city_name", encStr g.city_name),
     ("postal_code", encStr g.postal_code),
     ("is_local", some (.bool g.is_local)),
     ("asn", some (.obj (objFields
        [("number", encStr g.asn.number),
         ("organization", encStr g.asn.organization)])))])

/-- JSON encoding of the `cdn` section. -/
def encodeCdn (c : CdnInfo) : Json :=
  .obj (objFields
    [("originating_ip_geoip", some (encodeGeoIP c.originating_ip_geoip)),
     ("version", some (.str c.version)),
     ("url", encStr c.url),
     ("originating_ip", encStr c.originating_ip),
     ("time_elapsed_msec", encNat c.time_elapsed_msec),
     ("is_edge", some (.bool c.is_edge)),
     ("datacenter", encStr c.datacenter),
     ("region_code", encStr c.region_code),
     ("cache_status", encStr c.cache_status),
     ("cache_ttl", some (.num (c.cache_ttl : Rat)))])

/-- JSON encoding of the whole CDN record, as `JSON.stringify(fastlyLog)`
consumes it. -/
def encodeFastlyLog (f : FastlyLog) : Json :=
  .obj [("request", encodeFastlyRequest f.request),
        ("response", encodeFastlyResponse f.response),
        ("helix", encodeHelix f.helix),
        ("client", encodeClient f.client),
        ("cdn", encodeCdn f.cdn)]

/-- Source `createCoralogixLog(logData, event, env, type)`
(src/index.js 222-294).  `Date.now()` is passed in as `now`; the `type`
argument is carried by the `LogData` constructor as the dispatcher always
passes the tag matching the item. -/
def createCoralogixLog (logData : LogData) (event : RawOwningEvent)
    (env : WorkerEnv) (now : Nat) : CoralogixLog :=
  let timestamp := jsOrNat logData.timestampOf now
  let rayId := extractRayId event logData
  let scriptName := event.scriptName
  let log : CoralogixLog :=
    { timestamp := timestamp
      applicationName := (jsOrS env.APPLICATION_NAME (some "cloudflare-tail")).getD "cloudflare-tail"
      subsystemName := jsOrS scriptName env.SUBSYSTEM_NAME
      computerName := scriptName
      severity := 3
      text := ""
      category := logData.category
      className := some "TailWorker"
      methodName := none
      threadId := jsOrS rayId scriptName }
  match logData with
  | .console c =>
    { log with
      severity := (SEVERITY_MAP c.level).getD 3
      text := formatConsoleMessage c.message
      methodName := some c.level }
  | .exception x =>
    { log with
      severity := 5
      text := Json.render (.obj (objFields
        [("name", encStr x.name),
         ("message", encStr x.message),
         ("timestamp", encNat x.timestamp)]))
      className := x.name
      methodName := some "exception" }
  | .fetch _ =>
    match tailEvent2fastly event with
    | none => { log with text := "Failed to convert fetch event" }
    | some fastlyLog =>
      let log := { log with
        text := Json.render (encodeFastlyLog fastlyLog)
        methodName := some "fetch" }
      match fastlyLog.response.status with
      | none => log
      | some status =>
        if status = "" then log
        else
          let statusCode := parseIntJS status
          { log with
            severity :=
              if jsGE statusCode 500 then 5
              else if jsGE statusCode 400 then 4
              else 3 }

/-- The record-building loop body of the `tail` handler for one owning
event (src/index.js 134-153): one record per console item, one per
exception item, and one fetch record exactly when the nested sub-event
and its `request` are both present. -/
def eventLogs (env : WorkerEnv) (now : Nat) (event : RawOwningEvent) :
    List CoralogixLog :=
  (match event.logs with
   | some ls => ls.map (fun l => createCoralogixLog (.console l) event env now)
   | none => []) ++
  (match event.exceptions with
   | some xs => xs.map (fun x => createCoralogixLog (.exception x) event env now)
   | none => []) ++
  (match event.event with
   | some sub =>
     match sub.request with
     | some _ => [createCoralogixLog (.fetch sub) event env now]
     | none => []
   | none => [])

/-- Default (empty) environment used in concrete scenarios. -/
def env0 : WorkerEnv := {}

/-- Owning event whose fetch sub-event is present but carries no
`request` object. -/
def exC1 : RawOwningEvent := { event := some {} }

/-- A minimal console item. -/
def itemC2 : ConsoleItem := { level := "info" }

/-- Owning event with a `rayId` but no fetch sub-event at all. -/
def exC2 : RawOwningEvent :=
  { scriptName := some "my-worker", rayId := some "ray-abc", logs := some [itemC2] }

/-- Fetch event whose `cf.latitude` parses to the number zero. -/
def exC3zero : RawOwningEvent :=
  { event := some { request := some { url := some "https://example.com/x", cf := some { latitude := some "0", longitude := some "12.5" } } } }

/-- Fetch event with a parseable latitude and an unparseable longitude. -/
def exC3geo : RawOwningEvent :=
  { event := some { request := some { url := some "https://example.com/x", cf := some { latitude := some "37.5", longitude := some "not-a-number" } } } }

/-- Request whose URL carries an explicit port and whose headers carry no
`host` entry. -/
def reqC4 : RawRequest :=
  { url := some "https://example.com:8080/p?q=1", headers := some [] }

/-- Owning event around `reqC4`. -/
def exC4 : RawOwningEvent := { event := some { request := some reqC4 } }

/-- The parse of `reqC4`'s URL. -/
def urlC4 : URLRec :=
  { scheme := "https", hostname := "example.com", port := "8080"
    pathname := "/p", search := "?q=1" }

/-- Fetch sub-event with a valid URL and response status 404. -/
def subC6 : RawFetchSubEvent :=
  { request := some { url := some "https://example.com/" }
    response := some { status := some 404 } }

/-- Owning event around `subC6`. -/
def exC6 : RawOwningEvent := { event := some subC6 }

/-- Request carrying a `cf-ray` header, for the thread-id scenario. -/
def reqRay : RawRequest :=
  { url := some "https://example.com/", headers := some [("cf-ray", "ray-777")] }

/-- Owning event around `reqRay`. -/
def exRay : RawOwningEvent :=
  { scriptName := some "w", event := some { request := some reqRay } }

theorem tailEvent2fastly_inv {e : RawOwningEvent} {fl : FastlyLog}
    (h : tailEvent2fastly e = some fl) :
    ∃ req u, e.event.bind (fun s => s.request) = some req ∧
      req.url.bind parseURL = some u ∧ fl = buildFastly e req u := by
  cases hr : e.event.bind (fun s => s.request) with
  | none => simp [tailEvent2fastly, hr] at h
  | some req =>
    cases hu : req.url.bind parseURL with
    | none => simp [tailEvent2fastly, hr, hu] at h
    | some u =>
      simp [tailEvent2fastly, hr, hu] at h
      exact ⟨req, u, rfl, hu, h.symm⟩

/-- Claim C7: the HTTP-record converter fails exactly when the fetch
request object is missing or its URL does not parse as an absolute URL,
and succeeds on every other input. -/
theorem claim_C7_convert_failure (e : RawOwningEvent) :
    tailEvent2fastly e = none ↔
      (e.event.bind (fun s => s.request) = none ∨
       ((e.event.bind (fun s => s.request)).bind (fun r => r.url)).bind parseURL = none) := by
  unfold tailEvent2fastly
  cases e.event.bind (fun s => s.request) with
  | none => simp
  | some req =>
    cases h : req.url.bind parseURL with
    | none => simp [Option.bind_assoc, h]
    | some u => simp [Option.bind_assoc, h]

/-- Claim C7 scenario: a sub-event without a request yields no record. -/
theorem claim_C7_witness : tailEvent2fastly exC1 = none :=
  (claim_C7_convert_failure exC1).mpr (Or.inl rfl)

/-- Claim C8: the field resolver returns the absent marker exactly on
`undefined`, `null` and the empty string, and otherwise the value
unchanged, including present-but-falsy values. -/
theorem claim_C8_field_resolver :
    (∀ v : JSValue,
        ((v = .undefined ∨ v = .null ∨ v = .str "") ∧ getValueOrLog v = .null)
      ∨ ((v ≠ .undefined ∧ v ≠ .null ∧ v ≠ .str "") ∧ getValueOrLog v = v))
    ∧ getValueOrLog (.num 0) = .num 0
    ∧ getValueOrLog (.bool false) = .bool false := by
  refine ⟨fun v => ?_, by decide, by decide⟩
  by_cases h : v ≠ .undefined ∧ v ≠ .null ∧ v ≠ .str ""
  · exact Or.inr ⟨h, if_pos h⟩
  · refine Or.inl ⟨?_, if_neg h⟩
    push_neg at h
    by_cases h1 : v = .undefined
    · exact Or.inl h1
    · by_cases h2 : v = .null
      · exact Or.inr (Or.inl h2)
      · exact Or.inr (Or.inr (h h1 h2))

/-- Claim C8 scenario: the resolver keeps the falsy-but-present zero. -/
theorem claim_C8_witness : getValueOrLog (.num 0) = .num 0 :=
  claim_C8_field_resolver.2.1

theorem jsNumOrUndefined_ne_zero (v : Option Rat) : jsNumOrUndefined v ≠ some 0 := by
  cases v with
  | none => simp [jsNumOrUndefined]
  | some q =>
    by_cases h : q = 0 <;> simp [jsNumOrUndefined, h]

/-- Claim C4 (amended): on the converted record, `host` is the `host`
header when present and nonempty, else the parsed URL's hostname
component, which excludes any port; `url` is the URL's pathname; `qs`
is the search string with its first question mark removed. -/
theorem claim_C4_request_section (e : RawOwningEvent) (req : RawRequest)
    (u : URLRec) (fl : FastlyLog)
    (h1 : e.event.bind (fun s => s.request) = some req)
    (h2 : req.url.bind parseURL = some u)
    (h3 : tailEvent2fastly e = some fl) :
    fl.request.host =
        (match jsGet (req.headers.getD []) "host" with
         | some h => if h = "" then u.hostname else h
         | none => u.hostname)
      ∧ fl.request.url = u.pathname
      ∧ fl.request.qs = stripFirstQ u.search := by
  obtain ⟨req', u', hr, hu, hfl⟩ := tailEvent2fastly_inv h3
  rw [h1] at hr
  injection hr with hr
  subst hr
  rw [h2] at hu
  injection hu with hu
  subst hu
  subst hfl
  exact ⟨rfl, rfl, rfl⟩

/-- Claim C4 scenario: with no `host` header, the converter uses the
hostname (port excluded) and splits path from query. -/
theorem claim_C4_witness :
    (tailEvent2fastly exC4).map (fun f => (f.request.host, f.request.url, f.request.qs)) =
      some ("example.com", "/p", "q=1") := by
  cases h : tailEvent2fastly exC4 with
  | none => exact absurd h (by decide)
  | some fl =>
    have hm := claim_C4_request_section exC4 reqC4 urlC4 fl rfl (by decide) h
    simp only [Option.map_some']
    rw [hm.1, hm.2.1, hm.2.2]
    decide

/-- Claim C4 counterexample: the URL `https://example.com:8080/p?q=1`
has host component `example.com:8080`, but with no `host` header the
converted record's `request.host` is `example.com` — the port is
dropped, contradicting the claim's "including the port". -/
theorem claim_C4_counterexample :
    jsGet (reqC4.headers.getD []) "host" = none
    ∧ (tailEvent2fastly exC4).map (fun f => f.request.host) = some "example.com"
    ∧ "example.com" ≠ "example.com:8080" := by
  refine ⟨rfl, by decide, by decide⟩

/-- Claim C3 (amended): the geopoint coordinates equal the float parse
of `cf.latitude`/`cf.longitude` whenever that parse yields a nonzero
number, and are absent whenever the parse yields not-a-number or zero;
they are never the number zero. -/
theorem claim_C3_geopoint (e : RawOwningEvent) (fl : FastlyLog)
    (h : tailEvent2fastly e = some fl) :
    (fl.cdn.originating_ip_geoip.location_geopoint.lat =
        jsNumOrUndefined (parseFloatJS (((e.event.bind (fun s => s.request)).bind (fun r => r.cf)).bind (fun c => c.latitude)))
      ∧ fl.cdn.originating_ip_geoip.location_geopoint.lat ≠ some 0)
    ∧ (fl.cdn.originating_ip_geoip.location_geopoint.lon =
        jsNumOrUndefined (parseFloatJS (((e.event.bind (fun s => s.request)).bind (fun r => r.cf)).bind (fun c => c.longitude)))
      ∧ fl.cdn.originating_ip_geoip.location_geopoint.lon ≠ some 0) := by
  obtain ⟨req, u, hr, hu, hfl⟩ := tailEvent2fastly_inv h
  subst hfl
  rw [hr]
  exact ⟨⟨rfl, jsNumOrUndefined_ne_zero _⟩, ⟨rfl, jsNumOrUndefined_ne_zero _⟩⟩

/-- Claim C3 scenario: latitude `"37.5"` parses and lands in the record;
longitude `"not-a-number"` yields an absent `lon`. -/
theorem claim_C3_witness :
    (tailEvent2fastly exC3geo).map (fun f => f.cdn.originating_ip_geoip.location_geopoint.lat) =
        some (some (mkRat 75 2))
    ∧ (tailEvent2fastly exC3geo).map (fun f => f.cdn.originating_ip_geoip.location_geopoint.lon) =
        some none := by
  cases h : tailEvent2fastly exC3geo with
  | none => exact absurd h (by decide)
  | some fl =>
    have hm := claim_C3_geopoint exC3geo fl h
    simp only [Option.map_some']
    rw [hm.1.1, hm.2.1]
    constructor <;> decide

/-- Claim C3 counterexample: `cf.latitude = "0"` parses to the number
zero, yet the produced `lat` is absent — so `lat` is not "the
floating-point parse whenever that parse yields a number". -/
theorem claim_C3_counterexample :
    parseFloatJS (((exC3zero.event.bind (fun s => s.request)).bind (fun r => r.cf)).bind (fun c => c.latitude)) = some 0
    ∧ (tailEvent2fastly exC3zero).map (fun f => f.cdn.originating_ip_geoip.location_geopoint.lat) =
        some none := by
  constructor <;> decide

/-- Claim C1 (amended): each owning event contributes one record per
console item, one per exception item, and one fetch record exactly when
the nested sub-event is present AND carries a `request`. -/
theorem claim_C1_record_count (env : WorkerEnv) (now : Nat) (e : RawOwningEvent) :
    (eventLogs env now e).length =
      (e.logs.getD []).length + (e.exceptions.getD []).length +
        (match e.event.bind (fun s => s.request) with
         | some _ => 1
         | none => 0) := by
  unfold eventLogs
  cases e.logs <;> cases e.exceptions <;>
    (cases he : e.event with
     | none => simp [he]
     | some sub => cases hsr : sub.request <;> simp [he, hsr, Option.bind] <;> omega)

/-- Claim C1 scenario: one fetch sub-event with a request, no console
items, no exceptions: exactly one record. -/
theorem claim_C1_witness : (eventLogs env0 0 exC6).length = 1 :=
  (claim_C1_record_count env0 0 exC6).trans (by decide)

/-- Claim C1 counterexample: a present fetch sub-event without a
`request` contributes no record, so the claimed count
(console + exceptions + 1 when a fetch sub-event is present) fails. -/
theorem claim_C1_counterexample :
    exC1.event.isSome = true
    ∧ (eventLogs env0 0 exC1).length = 0
    ∧ (eventLogs env0 0 exC1).length ≠
        (exC1.logs.getD []).length + (exC1.exceptions.getD []).length +
          (if exC1.event.isSome then 1 else 0) := by
  refine ⟨rfl, rfl, by decide⟩

theorem resolveStep (a rest : Option String) :
    (if jsTruthy (getValueOrLog (jsOfStrOpt a)) then (getValueOrLog (jsOfStrOpt a)).toStrOpt
     else rest) = jsOrS a rest := by
  cases a with
  | none => simp [jsOfStrOpt, getValueOrLog, jsTruthy, jsOrS]
  | some s =>
    by_cases h : s = "" <;>
      simp [jsOfStrOpt, getValueOrLog, jsTruthy, jsOrS, JSValue.toStrOpt, h]

theorem extractRayId_eq (e : RawOwningEvent) (ld : LogData) :
    extractRayId e ld =
      match (e.event.bind (fun s => s.request)).orElse (fun _ => ld.requestOf) with
      | none => none
      | some req =>
        match req.headers with
        | none => none
        | some hs =>
          jsOrS (jsGet hs "cf-ray")
            (jsOrS (req.cf.bind (fun c => c.ray)) (jsOrS e.rayId none)) := by
  simp only [extractRayId]
  split
  · rfl
  · split
    · rfl
    · simp only [resolveStep]

theorem createCoralogixLog_threadId (ld : LogData) (e : RawOwningEvent)
    (env : WorkerEnv) (now : Nat) :
    (createCoralogixLog ld e env now).threadId = jsOrS (extractRayId e ld) e.scriptName := by
  cases ld with
  | console c => rfl
  | exception x => rfl
  | fetch f =>
    simp only [createCoralogixLog]
    split
    · rfl
    · split
      · rfl
      · split <;> rfl

/-- Claim C2 (amended): the resolution order cf-ray header, then
`cf.ray`, then the owning event's `rayId`, then `scriptName` applies
only when a request object with a headers object is available (from the
fetch sub-event or from the item itself); when the request or its
headers object is missing, steps (a)-(c) are skipped entirely — even a
present `rayId` is ignored — and the threadId falls back directly to the
producer identity. -/
theorem claim_C2_threadId_resolution (ld : LogData) (e : RawOwningEvent)
    (env : WorkerEnv) (now : Nat) :
    (createCoralogixLog ld e env now).threadId =
      jsOrS
        (match (e.event.bind (fun s => s.request)).orElse (fun _ => ld.requestOf) with
         | none => none
         | some req =>
           match req.headers with
           | none => none
           | some hs =>
             jsOrS (jsGet hs "cf-ray")
               (jsOrS (req.cf.bind (fun c => c.ray)) (jsOrS e.rayId none)))
        e.scriptName := by
  rw [createCoralogixLog_threadId, extractRayId_eq]

/-- Claim C2 scenario: with a request and headers present, the `cf-ray`
header wins the resolution. -/
theorem claim_C2_witness :
    (createCoralogixLog (.fetch { request := some reqRay }) exRay env0 0).threadId =
      some "ray-777" :=
  (claim_C2_threadId_resolution (.fetch { request := some reqRay }) exRay env0 0).trans
    (by decide)

/-- Claim C2 counterexample: no fetch request exists but the owning
event carries a `rayId`; the claim says the threadId equals that
`rayId`, yet the code falls back to the script name. -/
theorem claim_C2_counterexample :
    exC2.event = none ∧ exC2.rayId = some "ray-abc"
    ∧ (createCoralogixLog (.console itemC2) exC2 env0 0).threadId = some "my-worker"
    ∧ (createCoralogixLog (.console itemC2) exC2 env0 0).threadId ≠ exC2.rayId := by
  refine ⟨rfl, rfl, by decide, by decide⟩

theorem severity_map_getD_mem (s : String) :
    (SEVERITY_MAP s).getD 3 ∈ ([1, 3, 4, 5] : List Nat) := by
  unfold SEVERITY_MAP
  split <;> decide

/-- Claim C9: every record the normalizer produces — any item, owning
event, configuration and category — has severity 1, 3, 4 or 5. -/
theorem claim_C9_severity_values (ld : LogData) (e : RawOwningEvent)
    (env : WorkerEnv) (now : Nat) :
    (createCoralogixLog ld e env now).severity ∈ ([1, 3, 4, 5] : List Nat) := by
  cases ld with
  | console c =>
    simp only [createCoralogixLog]
    exact severity_map_getD_mem c.level
  | exception x =>
    simp only [createCoralogixLog]
    simp
  | fetch f =>
    simp only [createCoralogixLog]
    split
    · simp
    · split
      · simp
      · split
        · simp
        · split
          · simp
          · split <;> simp

/-- Claim C9 scenario: an exception record has severity 5, one of the
allowed values. -/
theorem claim_C9_witness :
    (createCoralogixLog (.exception {}) exC2 env0 0).severity ∈ ([1, 3, 4, 5] : List Nat) :=
  claim_C9_severity_values (.exception {}) exC2 env0 0

/-- Claim C10: `methodName` is the console level for console records,
the literal `exception` for exceptions, the literal `fetch` for
successfully converted fetch records, and wholly absent when the fetch
conversion fails — the failure branch sets only the placeholder text. -/
theorem claim_C10_methodName (ld : LogData) (e : RawOwningEvent)
    (env : WorkerEnv) (now : Nat) :
    ((createCoralogixLog ld e env now).methodName =
        match ld with
        | .console c => some c.level
        | .exception _ => some "exception"
        | .fetch _ =>
          match tailEvent2fastly e with
          | some _ => some "fetch"
          | none => none)
    ∧ ∀ f : RawFetchSubEvent,
        (createCoralogixLog (.fetch f) e env now).text =
          match tailEvent2fastly e with
          | some fl => Json.render (encodeFastlyLog fl)
          | none => "Failed to convert fetch event" := by
  constructor
  · cases ld with
    | console c => rfl
    | exception x => rfl
    | fetch f =>
      simp only [createCoralogixLog]
      split
      · rename_i x heq
        rw [heq]
      · rename_i x fl heq
        rw [heq]
        split
        · rfl
        · split <;> rfl
  · intro f
    simp only [createCoralogixLog]
    split
    · rename_i x heq
      rw [heq]
    · rename_i x fl heq
      rw [heq]
      split
      · rfl
      · split <;> rfl

/-- Claim C10 scenario: a successful conversion carries
`methodName = "fetch"`; a failed conversion carries no methodName and
the placeholder text. -/
theorem claim_C10_witness :
    (createCoralogixLog (.fetch subC6) exC6 env0 0).methodName = some "fetch"
    ∧ (createCoralogixLog (.fetch {}) exC1 env0 0).methodName = none
    ∧ (createCoralogixLog (.fetch {}) exC1 env0 0).text = "Failed to convert fetch event" :=
  ⟨(claim_C10_methodName (.fetch subC6) exC6 env0 0).1.trans (by decide),
   (claim_C10_methodName (.fetch {}) exC1 env0 0).1.trans (by decide),
   ((claim_C10_methodName (.fetch {}) exC1 env0 0).2 {}).trans (by decide)⟩

theorem digitChar_isDigit {n : Nat} (h : n < 10) : (digitChar n).isDigit = true := by
  interval_cases n <;> decide

theorem digitChar_toNat {n : Nat} (h : n < 10) : (digitChar n).toNat - 48 = n := by
  interval_cases n <;> decide

theorem digitsVal_append (xs : List Char) (c : Char) :
    digitsVal (xs ++ [c]) = 10 * digitsVal xs + (c.toNat - 48) := by
  simp [digitsVal, List.foldl_append]

theorem natDigits_lt {fuel n : Nat} (h : n < 10) :
    natDigits (fuel + 1) n = [digitChar n] := by
  simp only [natDigits]
  rw [if_pos h]

theorem natDigits_ge {fuel n : Nat} (h : ¬ n < 10) :
    natDigits (fuel + 1) n = natDigits fuel (n / 10) ++ [digitChar (n % 10)] := by
  simp only [natDigits]
  rw [if_neg h]

theorem natDigits_spec : ∀ (fuel n : Nat), n < 10 ^ (fuel + 1) →
    natDigits (fuel + 1) n ≠ [] ∧ (∀ c ∈ natDigits (fuel + 1) n, c.isDigit = true) ∧
    digitsVal (natDigits (fuel + 1) n) = n := by
  intro fuel
  induction fuel with
  | zero =>
    intro n h
    have h10 : n < 10 := by simpa using h
    rw [natDigits_lt h10]
    refine ⟨by simp, ?_, ?_⟩
    · intro c hc
      simp only [List.mem_singleton] at hc
      subst hc
      exact digitChar_isDigit h10
    · simp [digitsVal, digitChar_toNat h10]
  | succ fuel ih =>
    intro n h
    by_cases h10 : n < 10
    · rw [natDigits_lt h10]
      refine ⟨by simp, ?_, ?_⟩
      · intro c hc
        simp only [List.mem_singleton] at hc
        subst hc
        exact digitChar_isDigit h10
      · simp [digitsVal, digitChar_toNat h10]
    · rw [natDigits_ge h10]
      have hdiv : n / 10 < 10 ^ (fuel + 1) := by
        have hlt : n < 10 ^ (fuel + 1) * 10 := by
          have h' := h
          rw [pow_succ] at h'
          exact h'
        exact (Nat.div_lt_iff_lt_mul (by norm_num)).mpr hlt
      obtain ⟨hne, hdig, hval⟩ := ih (n / 10) hdiv
      have hm : n % 10 < 10 := Nat.mod_lt _ (by norm_num)
      refine ⟨by simp, ?_, ?_⟩
      · intro c hc
        rcases List.mem_append.mp hc with hc | hc
        · exact hdig c hc
        · simp only [List.mem_singleton] at hc
          subst hc
          exact digitChar_isDigit hm
      · rw [digitsVal_append, hval, digitChar_toNat hm]
        exact Nat.div_add_mod n 10

theorem jsNatToString_spec (n : Nat) :
    (jsNatToString n).data ≠ [] ∧ (∀ c ∈ (jsNatToString n).data, c.isDigit = true) ∧
    digitsVal (jsNatToString n).data = n := by
  have hlt : n < 10 ^ (n + 1) :=
    lt_of_lt_of_le (Nat.lt_pow_self (by norm_num) n)
      (Nat.pow_le_pow_right (by norm_num) (Nat.le_succ n))
  simpa [jsNatToString] using natDigits_spec n n hlt

theorem jsNatToString_ne_empty (n : Nat) : jsNatToString n ≠ "" := by
  obtain ⟨hne, -, -⟩ := jsNatToString_spec n
  intro h
  exact hne (by rw [h])

theorem digit_not_ws (c : Char) (h : c.isDigit = true) : isJsWS c = false := by
  by_contra hws
  have hws' : isJsWS c = true := by
    cases hb : isJsWS c
    · exact absurd hb hws
    · rfl
  simp only [isJsWS, decide_eq_true_eq, Bool.or_eq_true] at hws'
  rcases hws' with h1 | h1 | h1 | h1 <;> (subst h1; exact absurd h (by decide))

theorem takeDigits_all (l : List Char) (h : ∀ c ∈ l, c.isDigit = true) :
    takeDigits l = (l, []) := by
  induction l with
  | nil => rfl
  | cons c t ih =>
    have hc : c.isDigit = true := h c (List.mem_cons_self _ _)
    have ht : takeDigits t = (t, []) := ih (fun d hd => h d (List.mem_cons_of_mem _ hd))
    simp [takeDigits, hc, ht]

theorem splitSign_default {c : Char} (t : List Char) (hcm : c ≠ '-') (hcp : c ≠ '+') :
    splitSign (c :: t) = (false, c :: t) := by
  unfold splitSign
  split
  · rename_i heq
    injection heq with h1 h2
    exact absurd h1 hcm
  · rename_i heq
    injection heq with h1 h2
    exact absurd h1 hcp
  · rfl

theorem parseIntDigits (l : List Char) (hne : l ≠ [])
    (hdig : ∀ c ∈ l, c.isDigit = true) :
    parseIntJS (String.mk l) = some ((digitsVal l : Nat) : Int) := by
  cases l with
  | nil => exact absurd rfl hne
  | cons c t =>
    have hc : c.isDigit = true := hdig c (List.mem_cons_self _ _)
    have hws : isJsWS c = false := digit_not_ws c hc
    have hcm : c ≠ '-' := by
      intro hcc
      subst hcc
      exact absurd hc (by decide)
    have hcp : c ≠ '+' := by
      intro hcc
      subst hcc
      exact absurd hc (by decide)
    simp only [parseIntJS]
    have hdw : List.dropWhile isJsWS (c :: t) = c :: t := by
      rw [List.dropWhile_cons]
      simp [hws]
    rw [hdw, splitSign_default t hcm hcp]
    simp [takeDigits_all (c :: t) hdig]

theorem parseIntJS_natToString (n : Nat) :
    parseIntJS (jsNatToString n) = some ((n : Nat) : Int) := by
  obtain ⟨hne, hdig, hval⟩ := jsNatToString_spec n
  have h := parseIntDigits (jsNatToString n).data hne hdig
  rw [hval] at h
  simpa [jsNatToString] using h

theorem tailEvent2fastly_status {e : RawOwningEvent} {fl : FastlyLog}
    (h : tailEvent2fastly e = some fl) :
    fl.response.status =
      ((e.event.bind (fun s => s.response)).bind (fun r => r.status)).map jsNatToString := by
  obtain ⟨req, u, hr, hu, hfl⟩ := tailEvent2fastly_inv h
  subst hfl
  rfl

/-- Claim C6: on a successful conversion, the record's severity is 5
for a response status of at least 500, 4 for at least 400 and below
500, and 3 otherwise; with no status the default severity 3 stays. -/
theorem claim_C6_fetch_severity (ld : RawFetchSubEvent) (e : RawOwningEvent)
    (env : WorkerEnv) (now : Nat) (fl : FastlyLog)
    (h : tailEvent2fastly e = some fl) :
    (createCoralogixLog (.fetch ld) e env now).severity =
      match (e.event.bind (fun s => s.response)).bind (fun r => r.status) with
      | some sc => if 500 ≤ sc then 5 else if 400 ≤ sc then 4 else 3
      | none => 3 := by
  have hst := tailEvent2fastly_status h
  simp only [createCoralogixLog, h]
  rw [hst]
  cases hsc : (e.event.bind (fun s => s.response)).bind (fun r => r.status) with
  | none => rfl
  | some sc =>
    simp only [Option.map_some']
    rw [if_neg (jsNatToString_ne_empty sc)]
    rw [parseIntJS_natToString]
    by_cases h5 : 500 ≤ sc
    · have hb : jsGE (some ((sc : Nat) : Int)) 500 = true := by
        simp only [jsGE, decide_eq_true_eq]
        exact_mod_cast h5
      simp [hb, h5]
    · have hb : jsGE (some ((sc : Nat) : Int)) 500 = false := by
        simp only [jsGE]
        simp only [decide_eq_false_iff_not]
        exact_mod_cast h5
      by_cases h4 : 400 ≤ sc
      · have hb4 : jsGE (some ((sc : Nat) : Int)) 400 = true := by
          simp only [jsGE, decide_eq_true_eq]
          exact_mod_cast h4
        simp [hb, hb4, h5, h4]
      · have hb4 : jsGE (some ((sc : Nat) : Int)) 400 = false := by
          simp only [jsGE]
          simp only [decide_eq_false_iff_not]
          exact_mod_cast h4
        simp [hb, hb4, h5, h4]

/-- Claim C6 scenario: response status 404 yields severity 4. -/
theorem claim_C6_witness :
    (createCoralogixLog (.fetch subC6) exC6 env0 0).severity = 4 := by
  cases h : tailEvent2fastly exC6 with
  | none => exact absurd h (by decide)
  | some fl =>
    exact (claim_C6_fetch_severity subC6 exC6 env0 0 fl h).trans (by decide)

theorem jsGet_nil (k : String) : jsGet [] k = none := rfl

theorem jsGet_cons (p : String × String) (o : List (String × String)) (k : String) :
    jsGet (p :: o) k = if p.1 == k then some p.2 else jsGet o k := by
  cases h : (p.1 == k) <;> simp [jsGet, List.find?, h]

theorem jsGet_objSet (o : List (String × String)) (k v k' : String) :
    jsGet (objSet o k v) k' = if k' = k then some v else jsGet o k' := by
  induction o with
  | nil =>
    show jsGet [(k, v)] k' = _
    rw [jsGet_cons]
    by_cases h : k' = k
    · subst h
      simp
    · simp [h, Ne.symm h]
  | cons q o ih =>
    simp only [objSet]
    by_cases hq : (q.1 == k) = true
    · have hqk : q.1 = k := by simpa using hq
      rw [if_pos hq, jsGet_cons, jsGet_cons]
      by_cases h : k' = k
      · subst h
        simp
      · simp [h, Ne.symm h, hqk]
    · rw [if_neg hq, jsGet_cons, jsGet_cons, ih]
      by_cases hq' : (q.1 == k') = true
      · have h : ¬ k' = k := by
          intro hk
          exact hq (hk ▸ hq')
        simp [hq', h]
      · simp [hq']

theorem mem_objSet {o : List (String × String)} {k v : String} {p : String × String}
    (h : p ∈ objSet o k v) : p = (k, v) ∨ p ∈ o := by
  induction o with
  | nil => simpa [objSet] using h
  | cons q o ih =>
    simp only [objSet] at h
    by_cases hq : (q.1 == k) = true
    · rw [if_pos hq] at h
      rcases List.mem_cons.mp h with h | h
      · exact Or.inl h
      · exact Or.inr (List.mem_cons_of_mem _ h)
    · rw [if_neg hq] at h
      rcases List.mem_cons.mp h with h | h
      · exact Or.inr (by rw [h]; exact List.mem_cons_self _ _)
      · rcases ih h with h' | h'
        · exact Or.inl h'
        · exact Or.inr (List.mem_cons_of_mem _ h')

theorem keys_objSet_sub {o : List (String × String)} {k v : String} {a : String}
    (h : a ∈ (objSet o k v).map Prod.fst) : a ∈ o.map Prod.fst ∨ a = k := by
  rcases List.mem_map.mp h with ⟨p, hp, hpa⟩
  subst hpa
  rcases mem_objSet hp with h' | h'
  · right
    rw [h']
  · left
    exact List.mem_map_of_mem _ h'

theorem nodup_keys_objSet {o : List (String × String)} {k v : String}
    (h : (o.map Prod.fst).Nodup) : ((objSet o k v).map Prod.fst).Nodup := by
  induction o with
  | nil => simp [objSet]
  | cons q o ih =>
    simp only [List.map_cons, List.nodup_cons] at h
    obtain ⟨hq1, h2⟩ := h
    simp only [objSet]
    by_cases hq : (q.1 == k) = true
    · have hk : q.1 = k := by simpa using hq
      rw [if_pos hq]
      simp only [List.map_cons, List.nodup_cons]
      exact ⟨hk ▸ hq1, h2⟩
    · rw [if_neg hq]
      simp only [List.map_cons, List.nodup_cons]
      refine ⟨?_, ih h2⟩
      intro hmem
      rcases keys_objSet_sub hmem with h' | h'
      · exact hq1 h'
      · exact hq (by simp [h'])

theorem foldHeaders_go_get (hs : List (String × String)) :
    ∀ (acc : List (String × String)) (k : String),
      jsGet (hs.foldl (fun acc p => objSet acc (foldKey p.1) p.2) acc) k =
        hs.foldl (fun acc q => if foldKey q.1 == k then some q.2 else acc) (jsGet acc k) := by
  induction hs with
  | nil => intro acc k; rfl
  | cons p hs ih =>
    intro acc k
    simp only [List.foldl_cons]
    rw [ih]
    congr 1
    rw [jsGet_objSet]
    by_cases h : foldKey p.1 = k
    · rw [if_pos h.symm, if_pos (by simp [h])]
    · rw [if_neg (fun hk => h hk.symm), if_neg (by simp [h])]

theorem foldHeaders_get (hs : List (String × String)) (k : String) :
    jsGet (foldHeaders hs) k = lastFoldVal hs k := by
  have h := foldHeaders_go_get hs [] k
  simpa [foldHeaders, lastFoldVal, jsGet_nil] using h

theorem foldHeaders_nodup (hs : List (String × String)) :
    ((foldHeaders hs).map Prod.fst).Nodup := by
  have hgo : ∀ (l : List (String × String)) (acc : List (String × String)),
      ((acc.map Prod.fst).Nodup) →
      (((l.foldl (fun acc p => objSet acc (foldKey p.1) p.2) acc).map Prod.fst).Nodup) := by
    intro l
    induction l with
    | nil => intro acc h; exact h
    | cons p l ih =>
      intro acc h
      simp only [List.foldl_cons]
      exact ih _ (nodup_keys_objSet h)
  exact hgo hs [] (by simp)

theorem foldHeaders_mem {hs : List (String × String)} {p : String × String}
    (h : p ∈ foldHeaders hs) : ∃ q ∈ hs, p.1 = foldKey q.1 ∧ p.2 = q.2 := by
  have hgo : ∀ (l : List (String × String)) (acc : List (String × String))
      (p : String × String),
      p ∈ l.foldl (fun acc q => objSet acc (foldKey q.1) q.2) acc →
      p ∈ acc ∨ ∃ q ∈ l, p.1 = foldKey q.1 ∧ p.2 = q.2 := by
    intro l
    induction l with
    | nil => intro acc p h; exact Or.inl h
    | cons q l ih =>
      intro acc p h
      simp only [List.foldl_cons] at h
      rcases ih _ p h with h' | ⟨r, hr, h1, h2⟩
      · rcases mem_objSet h' with h'' | h''
        · right
          exact ⟨q, List.mem_cons_self _ _, by rw [h''], by rw [h'']⟩
        · left
          exact h''
      · right
        exact ⟨r, List.mem_cons_of_mem _ hr, h1, h2⟩
  rcases hgo hs [] p h with h' | h'
  · cases h'
  · exact h'

theorem char_toNat_ofNat_valid {n : Nat} (h : n.isValidChar) : (Char.ofNat n).toNat = n := by
  rw [Char.ofNat, dif_pos h]
  rfl

theorem uint32_le_iff_toNat_le (a b : UInt32) : a ≤ b ↔ a.toNat ≤ b.toNat := by
  rw [UInt32.le_def, BitVec.le_def]
  rfl

theorem toLower_isUpper_false (c : Char) : (c.toLower).isUpper = false := by
  unfold Char.toLower
  by_cases h : c.toNat ≥ 65 ∧ c.toNat ≤ 90
  · rw [if_pos h]
    have hv : (c.toNat + 32).isValidChar := by
      left
      have := h.2
      omega
    have ht : (Char.ofNat (c.toNat + 32)).toNat = c.toNat + 32 := char_toNat_ofNat_valid hv
    simp only [Char.isUpper]
    have hle : ¬ ((Char.ofNat (c.toNat + 32)).val ≤ 90) := by
      rw [uint32_le_iff_toNat_le]
      have h90 : (90 : UInt32).toNat = 90 := by decide
      rw [h90]
      show ¬ ((Char.ofNat (c.toNat + 32)).toNat ≤ 90)
      rw [ht]
      omega
    simp [hle]
  · rw [if_neg h]
    simp only [Char.isUpper]
    by_cases h65 : (65 : UInt32) ≤ c.val
    · have h90 : ¬ (c.val ≤ 90) := by
        intro hc
        apply h
        constructor
        · have := (uint32_le_iff_toNat_le 65 c.val).mp h65
          simpa using this
        · have := (uint32_le_iff_toNat_le c.val 90).mp hc
          simpa using this
      simp [h90]
    · simp [h65]

theorem foldKey_chars (s : String) (c : Char) (hc : c ∈ (foldKey s).data) :
    c ≠ '-' ∧ c.isUpper = false := by
  simp only [foldKey] at hc
  rcases List.mem_map.mp hc with ⟨d, hd, hdc⟩
  rcases List.mem_map.mp hd with ⟨d0, hd0, hdd⟩
  subst hdd
  subst hdc
  by_cases h : d0.toLower = '-'
  · rw [if_pos h]
    exact ⟨by decide, by decide⟩
  · rw [if_neg h]
    exact ⟨h, toLower_isUpper_false d0⟩

/-- Claim C5: folding a header mapping turns every key into the source
key lower-cased with hyphens replaced by underscores (and the folded
keys indeed carry no hyphen and no upper-case letter), passes values
through unchanged, keeps the folded keys unique, resolves collisions
last-write-wins, and maps the example as stated. -/
theorem claim_C5_fold_headers :
    (∀ hs : List (String × String),
        ((foldHeaders hs).map Prod.fst).Nodup
      ∧ (∀ p ∈ foldHeaders hs, ∃ q ∈ hs, p.1 = foldKey q.1 ∧ p.2 = q.2)
      ∧ (∀ p ∈ foldHeaders hs, ∀ c ∈ p.1.data, c ≠ '-' ∧ c.isUpper = false)
      ∧ (∀ k, jsGet (foldHeaders hs) k = lastFoldVal hs k))
    ∧ foldHeaders [("X-Forwarded-For", "a")] = [("x_forwarded_for", "a")] := by
  refine ⟨fun hs => ⟨foldHeaders_nodup hs, ?_, ?_, foldHeaders_get hs⟩, by decide⟩
  · intro p hp
    exact foldHeaders_mem hp
  · intro p hp c hc
    rcases foldHeaders_mem hp with ⟨q, hq, h1, h2⟩
    rw [h1] at hc
    exact foldKey_chars q.1 c hc

/-- Claim C5 scenario: the folded example presents the folded key and
retrieves the untouched value. -/
theorem claim_C5_witness :
    jsGet (foldHeaders [("X-Forwarded-For", "a")]) "x_forwarded_for" = some "a"
    ∧ foldHeaders [("X-Forwarded-For", "a")] = [("x_forwarded_for", "a")] :=
  ⟨((claim_C5_fold_headers.1 [("X-Forwarded-For", "a")]).2.2.2 "x_forwarded_for").trans
    (by decide),
   claim_C5_fold_headers.2⟩
